import Mathlib

/-!
Verification development for `script.py` (php_jobs_desktop), a desktop
scraper whose core pipeline is fetch → extract → deduplicate.

The HTML parser (BeautifulSoup with "html.parser"), the HTTP client
(requests), `urllib.parse` and `html.unescape` are external collaborators
of the script.  The extractor `find_php_links_on_html` operates on the
parsed element tree only through: the document-order list of anchor
elements having an `href` attribute, each anchor's
`get_text(" ", strip=True)` string, its raw `href` attribute value, and
its parent element's `get_text(" ", strip=True)` string.  We therefore
embed a parsed page as a list of `Anchor` records carrying exactly those
observations, and embed the library helpers (`urljoin`, `html.unescape`,
`urlparse(...).scheme`, `str.lower`, `str.strip`) as executable functions
over character lists modelling their behaviour on the inputs this program
produces.
-/

namespace PhpJobs

/-- Substring test on character lists: `needle` occurs contiguously in the
haystack.  Models the Python `in` operator on strings. -/
def hasSubSeq (needle : List Char) : List Char → Bool
  | [] => needle.isEmpty
  | c :: cs => needle.isPrefixOf (c :: cs) || hasSubSeq needle cs

/-- Python `pat in s` (substring containment). -/
def strContainsSub (s pat : String) : Bool :=
  hasSubSeq pat.toList s.toList

/-- Python `str.lower` (the strings this program lowercases are ASCII,
where per-character lowering agrees with Python). -/
def lowerStr (s : String) : String :=
  String.mk (s.toList.map Char.toLower)

/-- Scheme characters accepted by `urllib.parse` after the leading
letter. -/
def isSchemeChar (c : Char) : Bool :=
  c.isAlpha || c.isDigit || c == '+' || c == '-' || c == '.'

/-- Models `urllib.parse.urlparse(s).scheme` (modern CPython): the scheme is
the part before the first `:` when that part is nonempty, starts with a
letter and consists of letters, digits, `+`, `-`, `.`; otherwise the empty
string. -/
def urlScheme (s : String) : String :=
  let l := s.toList
  let pre := l.takeWhile (fun c => c != ':')
  match pre with
  | [] => ""
  | c :: cs =>
      if pre.length != l.length && c.isAlpha && cs.all isSchemeChar then
        String.mk ((c :: cs).map Char.toLower)
      else ""

/-- Split a character list at the first occurrence of `pat`, returning the
parts before and after it; `none` when `pat` does not occur. -/
def splitFirst (pat : List Char) : List Char → Option (List Char × List Char)
  | [] => if pat.isEmpty then some ([], []) else none
  | c :: cs =>
      if pat.isPrefixOf (c :: cs) then some ([], List.drop pat.length (c :: cs))
      else
        match splitFirst pat cs with
        | some (pre, post) => some (c :: pre, post)
        | none => none

/-- The characters of the `://` separator between scheme and authority. -/
def schemeSep : List Char := [':', '/', '/']

/-- The `scheme://authority` portion of a base URL, used to resolve
root-relative references. -/
def schemeHostL (l : List Char) : List Char :=
  match splitFirst schemeSep l with
  | some (sch, rest) => sch ++ schemeSep ++ rest.takeWhile (fun c => c != '/')
  | none => l

/-- The base URL up to (and including) the last `/` of its path, used to
resolve plain relative references. -/
def baseDirL (l : List Char) : List Char :=
  let sh := schemeHostL l
  let path := l.drop sh.length
  let keep := (path.reverse.dropWhile (fun c => c != '/')).reverse
  if keep = [] then sh ++ ['/'] else sh ++ keep

/-- Models `urllib.parse.urljoin(base, href)` on the reference shapes this
program produces: an empty href yields the base, an href with a scheme is
already absolute, `//`-prefixed hrefs keep the base scheme, `/`-prefixed
hrefs are resolved against the authority, other hrefs against the base
directory. -/
def urljoin (base href : String) : String :=
  let hl := href.toList
  if hl = [] then base
  else if urlScheme href ≠ "" then href
  else if ['/', '/'].isPrefixOf hl then
    (match splitFirst schemeSep base.toList with
     | some (sch, _) => String.mk (sch ++ [':'] ++ hl)
     | none => href)
  else if hl.headD ' ' = '/' then String.mk (schemeHostL base.toList ++ hl)
  else String.mk (baseDirL base.toList ++ hl)

/-- Fueled single-pattern textual replacement: scan left to right, replace
each occurrence of `pat` and continue after it, exactly as Python
`str.replace`.  The fuel bounds the recursion; `replaceList` supplies the
list length, which is enough for the nonempty patterns used here. -/
def replaceAux (pat sub : List Char) : Nat → List Char → List Char
  | _, [] => []
  | 0, l => l
  | fuel + 1, c :: cs =>
      if pat.isPrefixOf (c :: cs) then
        sub ++ replaceAux pat sub fuel (List.drop pat.length (c :: cs))
      else c :: replaceAux pat sub fuel cs

def replaceList (l pat sub : List Char) : List Char :=
  replaceAux pat sub l.length l

/-- Models `html.unescape` restricted to the five predefined entities; the
titles exercised by the claims contain no entity references, where this
model agrees with the library (it maps entity-free strings to
themselves). -/
def html_unescape (s : String) : String :=
  let l1 := replaceList s.toList "&lt;".toList "<".toList
  let l2 := replaceList l1 "&gt;".toList ">".toList
  let l3 := replaceList l2 "&quot;".toList [Char.ofNat 34]
  let l4 := replaceList l3 "&#39;".toList [Char.ofNat 39]
  String.mk (replaceList l4 "&amp;".toList "&".toList)

/-- One `<a href=...>` element of the parsed page, in document order:
`txt` is `a.get_text(" ", strip=True)`, `href` the raw attribute value,
`parentText` is `a.parent.get_text(" ", strip=True)` (or `none` for an
anchor with no parent; inside a parsed document every anchor has one —
top-level anchors are children of the document root). -/
structure Anchor where
  txt : String
  href : String
  parentText : Option String
deriving DecidableEq, Repr

/-- A scraped link: the dict `{"title": ..., "url": ...}` in the script. -/
structure Candidate where
  title : String
  url : String
deriving DecidableEq, Repr

/-- `MAX_LINKS_PER_SITE = 200` in the script's configuration block. -/
def MAX_LINKS_PER_SITE : Nat := 200

/-- Rule A of the extractor (script.py line 67):
`"php" in txt or "php" in href.lower()` where
`txt = (a.get_text(" ", strip=True) or "").lower()`. -/
def anchorMatchesA (a : Anchor) : Bool :=
  strContainsSub (lowerStr a.txt) "php" || strContainsSub (lowerStr a.href) "php"

/-- Rule B of the extractor (script.py lines 72-76): the parent element
exists and its visible text, lowercased, contains "php". -/
def anchorMatchesB (a : Anchor) : Bool :=
  match a.parentText with
  | none => false
  | some pt => strContainsSub (lowerStr pt) "php"

/-- The candidate built for a matched anchor (script.py lines 68-70 and
77-79, identical in both branches): title is the anchor text, falling back
to the raw href when the text is empty, entity-unescaped; url is the href
joined against the base URL. -/
def candOf (base_url : String) (a : Anchor) : Candidate :=
  { title := html_unescape (if a.txt = "" then a.href else a.txt),
    url := urljoin base_url a.href }

/-- Per-anchor body of the extractor's loop (script.py lines 64-79): rule A,
and only when it fails, rule B on the parent text. -/
def processAnchor (base_url : String) (a : Anchor) : Option Candidate :=
  if anchorMatchesA a then some (candOf base_url a)
  else if anchorMatchesB a then some (candOf base_url a)
  else none

/-- The `matches` list built by the extractor's for-loop, in document
order. -/
def rawMatches (anchors : List Anchor) (base_url : String) : List Candidate :=
  anchors.filterMap (processAnchor base_url)

/-- The deduplication loop of the extractor (script.py lines 81-89): walk
the match list keeping first occurrences of each `(url, title)` key, and
stop as soon as `MAX_LINKS_PER_SITE` entries have been kept.  `seen` and
`acc` (reversed) mirror the Python `seen` set and `deduped` list. -/
def dedupLoop : List Candidate → List (String × String) → List Candidate → List Candidate
  | [], _, acc => acc.reverse
  | m :: ms, seen, acc =>
      let key := (m.url, m.title)
      let acc2 := if key ∈ seen then acc else m :: acc
      let seen2 := if key ∈ seen then seen else key :: seen
      if MAX_LINKS_PER_SITE ≤ acc2.length then acc2.reverse
      else dedupLoop ms seen2 acc2

/-- `find_php_links_on_html` (script.py lines 59-90) on the parsed page. -/
def find_php_links_on_html (anchors : List Anchor) (base_url : String) : List Candidate :=
  dedupLoop (rawMatches anchors base_url) [] []

/-- Deduplication on the pair `(url, title)` preserving first-occurrence
order, written from the spec's words (§4.2 step 3) to compare with the
script's fused loop: keep a match exactly when its key has not been seen
before, with no result cap. -/
def dedupFirstAux (seen : List (String × String)) : List Candidate → List Candidate
  | [] => []
  | m :: ms =>
      if (m.url, m.title) ∈ seen then dedupFirstAux seen ms
      else m :: dedupFirstAux ((m.url, m.title) :: seen) ms

def dedupPairsSpec (l : List Candidate) : List Candidate :=
  dedupFirstAux [] l

/-- An unexpected exception raised by the HTML parsing / extraction step —
the spec's `ParseDefect`. -/
inductive ParseDefect where
  | defect (msg : String) : ParseDefect
deriving DecidableEq, Repr

/-- `scrape_site` (script.py lines 92-99), parameterised by the effect of
`fetch_page` (which returns the page text, or `None` for any non-success
status, network error or timeout — script.py lines 50-57) and by the
extraction step, which may raise.  `if not html_text: return []` treats
both `None` and the empty string as no content; there is no exception
handler around the extraction call, so a raised `ParseDefect`
propagates. -/
def scrape_site (fetch : String → Option String)
    (extract : String → String → Except ParseDefect (List Candidate))
    (url : String) : Except ParseDefect (List Candidate) :=
  match fetch url with
  | none => Except.ok []
  | some h => if h = "" then Except.ok [] else extract h url

/-- One row inserted into the results tree (`add_result`): visible title,
source site, hidden url. -/
structure Row where
  title : String
  site : String
  url : String
deriving DecidableEq, Repr

/-- How a run of `scrape_and_display` ends: reaching the final
`Done — found N items` status with the total count, returning early from
the empty-site-list warning, or dying on an uncaught exception. -/
inductive RunExit where
  | done (total : Nat) : RunExit
  | configWarning : RunExit
  | raised (d : ParseDefect) : RunExit
deriving DecidableEq, Repr

/-- Observable outcome of a run: how it exited, the rows inserted into the
tree before exit, and the normalized URLs handed to `scrape_site`, in
order. -/
structure RunResult where
  exit : RunExit
  rows : List Row
  fetchLog : List String
deriving DecidableEq, Repr

/-- Python `str.strip` (whitespace from both ends). -/
def trimStr (s : String) : String :=
  String.mk (((s.toList.dropWhile Char.isWhitespace).reverse.dropWhile
    Char.isWhitespace).reverse)

/-- The site list read from the text widget (script.py lines 185-186): one
entry per line, stripped, empty lines dropped. -/
def cleanSites (rawLines : List String) : List String :=
  (rawLines.map trimStr).filter (fun l => l != "")

/-- Scheme normalization (script.py lines 197-199): prepend `https://` when
`urlparse(site).scheme` is empty. -/
def normalizeSite (site : String) : String :=
  if urlScheme site = "" then "https://" ++ site else site

/-- Display-level title fallback (script.py line 204):
`title = l.get("title") or l.get("url")`. -/
def rowTitle (c : Candidate) : String :=
  if c.title = "" then c.url else c.title

/-- The per-site loop of `scrape_and_display` (script.py lines 196-210):
normalize the site, scrape it, insert one row per link and add to the
running total; an exception raised by `scrape_site` kills the worker
thread, freezing the rows inserted so far and never reaching the final
status.  (The fixed `time.sleep` between sites has no observable effect in
this embedding.) -/
def runSites (fetch : String → Option String)
    (extract : String → String → Except ParseDefect (List Candidate)) :
    List String → RunResult
  | [] => ⟨RunExit.done 0, [], []⟩
  | site :: rest =>
      let s := normalizeSite site
      match scrape_site fetch extract s with
      | Except.error d => ⟨RunExit.raised d, [], [s]⟩
      | Except.ok links =>
          let rows := links.map (fun c => Row.mk (rowTitle c) s c.url)
          let r := runSites fetch extract rest
          match r.exit with
          | RunExit.done n => ⟨RunExit.done (n + links.length), rows ++ r.rows, s :: r.fetchLog⟩
          | e => ⟨e, rows ++ r.rows, s :: r.fetchLog⟩

/-- `scrape_and_display` (script.py lines 183-210): read and clean the site
list; an empty list shows the "No sites" warning and returns before any
network activity (the spec's `ConfigurationError`); otherwise run the
per-site loop. -/
def scrape_and_display (fetch : String → Option String)
    (extract : String → String → Except ParseDefect (List Candidate))
    (rawLines : List String) : RunResult :=
  match cleanSites rawLines with
  | [] => ⟨RunExit.configWarning, [], []⟩
  | s :: rest => runSites fetch extract (s :: rest)

/-- The script's actual extraction step: parse the page (external parser,
abstracted as `parse`) and run `find_php_links_on_html`; it is total, so it
never raises. -/
def extractReal (parse : String → List Anchor) :
    String → String → Except ParseDefect (List Candidate) :=
  fun h u => Except.ok (find_php_links_on_html (parse h) u)

/-- The links one configured site contributes to the run when the script's
own extraction step is used: none when the fetch fails or returns an empty
body, the extractor's output otherwise. -/
def siteLinks (fetch : String → Option String) (parse : String → List Anchor)
    (site : String) : List Candidate :=
  match fetch (normalizeSite site) with
  | none => []
  | some h =>
      if h = "" then []
      else find_php_links_on_html (parse h) (normalizeSite site)

/-- The rows a run over `sites` inserts when the script's own extraction
step is used. -/
def realRows (fetch : String → Option String) (parse : String → List Anchor) :
    List String → List Row
  | [] => []
  | s :: rest =>
      ((siteLinks fetch parse s).map
        (fun c => Row.mk (rowTitle c) (normalizeSite s) c.url)) ++
      realRows fetch parse rest

/-! Helper lemmas. -/

theorem candKey_inj {c d : Candidate}
    (h : (c.url, c.title) = (d.url, d.title)) : c = d := by
  cases c; cases d
  simp only [Prod.mk.injEq] at h
  simp [h.1, h.2]

theorem dedupLoop_eq (ms : List Candidate) :
    ∀ (seen : List (String × String)) (acc : List Candidate),
      acc.length < MAX_LINKS_PER_SITE →
      dedupLoop ms seen acc
        = acc.reverse ++ (dedupFirstAux seen ms).take (MAX_LINKS_PER_SITE - acc.length) := by
  induction ms with
  | nil => intro seen acc _; simp [dedupLoop, dedupFirstAux]
  | cons m ms ih =>
      intro seen acc hlt
      by_cases hk : (m.url, m.title) ∈ seen
      · rw [show dedupLoop (m :: ms) seen acc
              = if MAX_LINKS_PER_SITE ≤ acc.length then acc.reverse
                else dedupLoop ms seen acc by simp [dedupLoop, hk]]
        rw [if_neg (Nat.not_le.2 hlt), ih seen acc hlt]
        simp [dedupFirstAux, hk]
      · rw [show dedupLoop (m :: ms) seen acc
              = if MAX_LINKS_PER_SITE ≤ (m :: acc).length then (m :: acc).reverse
                else dedupLoop ms ((m.url, m.title) :: seen) (m :: acc) by
            simp [dedupLoop, hk]]
        rw [show dedupFirstAux seen (m :: ms)
              = m :: dedupFirstAux ((m.url, m.title) :: seen) ms by
            simp [dedupFirstAux, hk]]
        by_cases hfull : MAX_LINKS_PER_SITE ≤ (m :: acc).length
        · rw [if_pos hfull]
          have h1 : MAX_LINKS_PER_SITE - acc.length = 1 := by
            simp only [List.length_cons] at hfull; omega
          simp [h1, List.take_succ_cons]
        · rw [if_neg hfull]
          have hlt2 : (m :: acc).length < MAX_LINKS_PER_SITE := Nat.not_le.1 hfull
          rw [ih ((m.url, m.title) :: seen) (m :: acc) hlt2]
          have h2 : MAX_LINKS_PER_SITE - acc.length
              = (MAX_LINKS_PER_SITE - (m :: acc).length) + 1 := by
            simp only [List.length_cons]; omega
          rw [h2, List.take_succ_cons]
          simp

theorem find_php_eq_spec (anchors : List Anchor) (base_url : String) :
    find_php_links_on_html anchors base_url
      = (dedupPairsSpec (rawMatches anchors base_url)).take MAX_LINKS_PER_SITE := by
  unfold find_php_links_on_html dedupPairsSpec
  have h := dedupLoop_eq (rawMatches anchors base_url) [] []
    (by simp [MAX_LINKS_PER_SITE])
  simpa using h

theorem dedupFirstAux_key_notin (ms : List Candidate) :
    ∀ (seen : List (String × String)) (c : Candidate),
      c ∈ dedupFirstAux seen ms → (c.url, c.title) ∉ seen := by
  induction ms with
  | nil => intro seen c hc; simp [dedupFirstAux] at hc
  | cons m ms ih =>
      intro seen c hc
      by_cases hk : (m.url, m.title) ∈ seen
      · rw [show dedupFirstAux seen (m :: ms) = dedupFirstAux seen ms by
          simp [dedupFirstAux, hk]] at hc
        exact ih seen c hc
      · rw [show dedupFirstAux seen (m :: ms)
              = m :: dedupFirstAux ((m.url, m.title) :: seen) ms by
            simp [dedupFirstAux, hk]] at hc
        rcases List.mem_cons.1 hc with rfl | hc
        · exact hk
        · have := ih _ c hc
          intro hmem
          exact this (List.mem_cons_of_mem _ hmem)

theorem dedupFirstAux_pairwise (ms : List Candidate) :
    ∀ (seen : List (String × String)),
      (dedupFirstAux seen ms).Pairwise
        (fun c d => (c.url, c.title) ≠ (d.url, d.title)) := by
  induction ms with
  | nil => intro seen; simp [dedupFirstAux]
  | cons m ms ih =>
      intro seen
      by_cases hk : (m.url, m.title) ∈ seen
      · rw [show dedupFirstAux seen (m :: ms) = dedupFirstAux seen ms by
          simp [dedupFirstAux, hk]]
        exact ih seen
      · rw [show dedupFirstAux seen (m :: ms)
              = m :: dedupFirstAux ((m.url, m.title) :: seen) ms by
            simp [dedupFirstAux, hk]]
        refine List.Pairwise.cons ?_ (ih _)
        intro d hd heq
        have := dedupFirstAux_key_notin ms _ d hd
        exact this (by rw [← heq]; exact List.mem_cons_self _ _)

theorem mem_dedupFirstAux (ms : List Candidate) :
    ∀ (seen : List (String × String)) (c : Candidate),
      c ∈ ms → (c.url, c.title) ∉ seen → c ∈ dedupFirstAux seen ms := by
  induction ms with
  | nil => intro seen c hc; simp at hc
  | cons m ms ih =>
      intro seen c hc hns
      rcases List.mem_cons.1 hc with rfl | hc
      · rw [show dedupFirstAux seen (c :: ms)
              = c :: dedupFirstAux ((c.url, c.title) :: seen) ms by
            simp [dedupFirstAux, hns]]
        exact List.mem_cons_self _ _
      · by_cases hk : (m.url, m.title) ∈ seen
        · rw [show dedupFirstAux seen (m :: ms) = dedupFirstAux seen ms by
            simp [dedupFirstAux, hk]]
          exact ih seen c hc hns
        · rw [show dedupFirstAux seen (m :: ms)
                = m :: dedupFirstAux ((m.url, m.title) :: seen) ms by
              simp [dedupFirstAux, hk]]
          by_cases hkey : (c.url, c.title) = (m.url, m.title)
          · have : c = m := candKey_inj hkey
            subst this
            exact List.mem_cons_self _ _
          · refine List.mem_cons_of_mem _ (ih _ c hc ?_)
            intro hmem
            rcases List.mem_cons.1 hmem with h | h
            · exact hkey h
            · exact hns h

theorem mem_take_or_len {α : Type} (c : α) (l : List α) (n : Nat) (h : c ∈ l) :
    c ∈ l.take n ∨ (l.take n).length = n := by
  rcases le_or_lt l.length n with hle | hlt
  · left
    rwa [List.take_of_length_le hle]
  · right
    rw [List.length_take]
    exact Nat.min_eq_left (Nat.le_of_lt hlt)

theorem scrape_site_real (fetch : String → Option String)
    (parse : String → List Anchor) (site : String) :
    scrape_site fetch (extractReal parse) (normalizeSite site)
      = Except.ok (siteLinks fetch parse site) := by
  unfold scrape_site siteLinks extractReal
  cases fetch (normalizeSite site) with
  | none => rfl
  | some h => by_cases hh : h = "" <;> simp [hh]

theorem runSites_real (fetch : String → Option String)
    (parse : String → List Anchor) :
    ∀ sites : List String,
      runSites fetch (extractReal parse) sites
        = ⟨RunExit.done
             ((sites.map (fun s => (siteLinks fetch parse s).length)).sum),
           realRows fetch parse sites,
           sites.map normalizeSite⟩ := by
  intro sites
  induction sites with
  | nil => simp [runSites, realRows]
  | cons site rest ih =>
      rw [show runSites fetch (extractReal parse) (site :: rest)
            = (match scrape_site fetch (extractReal parse) (normalizeSite site) with
               | Except.error d => ⟨RunExit.raised d, [], [normalizeSite site]⟩
               | Except.ok links =>
                   let rows := links.map
                     (fun c => Row.mk (rowTitle c) (normalizeSite site) c.url)
                   let r := runSites fetch (extractReal parse) rest
                   match r.exit with
                   | RunExit.done n =>
                       ⟨RunExit.done (n + links.length), rows ++ r.rows,
                        normalizeSite site :: r.fetchLog⟩
                   | e => ⟨e, rows ++ r.rows, normalizeSite site :: r.fetchLog⟩)
            from rfl]
      rw [scrape_site_real, ih]
      simp [realRows, Nat.add_comm]

/-! Claim theorems. -/

/-- The anchors BeautifulSoup ("html.parser") yields for the fragment
`<a href="/job/1">Senior PHP Developer</a><a href="/job/2">Designer</a>`:
two top-level anchors, each with the document root as parent, whose
`get_text(" ", strip=True)` is "Senior PHP Developer Designer". -/
def c1Anchors : List Anchor :=
  [ Anchor.mk "Senior PHP Developer" "/job/1" (some "Senior PHP Developer Designer"),
    Anchor.mk "Designer" "/job/2" (some "Senior PHP Developer Designer") ]

/-- C1 counterexample: on the spec's example HTML the extractor does not
return exactly the one claimed candidate — the "Designer" anchor also
matches, through rule B, because its parent (the document root) contains
"PHP" in its visible text. -/
theorem php_jobs_c1_cex :
    find_php_links_on_html c1Anchors "https://jobs.test"
      ≠ [Candidate.mk "Senior PHP Developer" "https://jobs.test/job/1"] := by
  decide

/-- C1 (amended): on the example HTML the extractor returns exactly two
candidates: `{Senior PHP Developer, https://jobs.test/job/1}` by rule A,
followed by `{Designer, https://jobs.test/job/2}` by the parent-text
fallback (the shared parent's text contains "PHP"). -/
theorem php_jobs_c1_amended :
    find_php_links_on_html c1Anchors "https://jobs.test"
      = [ Candidate.mk "Senior PHP Developer" "https://jobs.test/job/1",
          Candidate.mk "Designer" "https://jobs.test/job/2" ] := by
  decide

/-- C3 (amended): an anchor whose lowercased text or href contains "php"
always produces its candidate in the match list, and that candidate
appears in the extractor's output unless the 200-entry cap was filled
first (in which case the output has exactly `MAX_LINKS_PER_SITE`
entries). -/
theorem php_jobs_c3_amended (anchors : List Anchor) (base_url : String)
    (a : Anchor) (ha : a ∈ anchors) (hm : anchorMatchesA a = true) :
    processAnchor base_url a = some (candOf base_url a) ∧
    (candOf base_url a ∈ find_php_links_on_html anchors base_url ∨
      (find_php_links_on_html anchors base_url).length = MAX_LINKS_PER_SITE) := by
  have hp : processAnchor base_url a = some (candOf base_url a) := by
    simp [processAnchor, hm]
  refine ⟨hp, ?_⟩
  have hraw : candOf base_url a ∈ rawMatches anchors base_url := by
    unfold rawMatches
    exact List.mem_filterMap.2 ⟨a, ha, hp⟩
  have hded : candOf base_url a ∈ dedupPairsSpec (rawMatches anchors base_url) :=
    mem_dedupFirstAux _ _ _ hraw (by simp)
  rw [find_php_eq_spec]
  exact mem_take_or_len _ _ _ hded

/-- Witness for C3 (amended) at a one-anchor page. -/
theorem php_jobs_c3_amended_witness :
    candOf "https://x" (Anchor.mk "PHP developer" "/a" none)
        ∈ find_php_links_on_html [Anchor.mk "PHP developer" "/a" none] "https://x" ∨
      (find_php_links_on_html [Anchor.mk "PHP developer" "/a" none] "https://x").length
        = MAX_LINKS_PER_SITE :=
  (php_jobs_c3_amended [Anchor.mk "PHP developer" "/a" none] "https://x"
    (Anchor.mk "PHP developer" "/a" none) (by decide) (by decide)).2

/-- An anchor family for the C3 counterexample: empty text, href
`<c>php` with a distinct leading character per index, so rule A matches
every one of them and all 201 keys are distinct. -/
def c3CexAnchor (i : Nat) : Anchor :=
  Anchor.mk "" (String.mk [Char.ofNat (65 + i), 'p', 'h', 'p']) none

def c3CexAnchors : List Anchor :=
  (List.range 201).map c3CexAnchor

set_option maxRecDepth 40000 in
set_option maxHeartbeats 2000000 in
/-- C3 counterexample: on a page with 201 distinct rule-A-matching anchors
the 201st matching anchor's candidate is absent from the extractor's
output, which was truncated at 200 entries — refuting the unconditional
"it appears in the output". -/
theorem php_jobs_c3_cex :
    c3CexAnchor 200 ∈ c3CexAnchors ∧
    anchorMatchesA (c3CexAnchor 200) = true ∧
    candOf "" (c3CexAnchor 200) ∉ find_php_links_on_html c3CexAnchors "" ∧
    (find_php_links_on_html c3CexAnchors "").length = MAX_LINKS_PER_SITE := by
  refine ⟨by decide, by decide, by decide, by decide⟩

/-- C4 counterexample: an anchor with empty text and empty href, matched
through the parent rule, is included — but its candidate has title `""`
and url equal to the base URL, so title does not equal url. -/
theorem php_jobs_c4_cex :
    anchorMatchesB (Anchor.mk "" "" (some "php jobs")) = true ∧
    find_php_links_on_html [Anchor.mk "" "" (some "php jobs")] "https://jobs.test"
      = [Candidate.mk "" "https://jobs.test"] ∧
    (Candidate.mk "" "https://jobs.test").title
      ≠ (Candidate.mk "" "https://jobs.test").url := by
  decide

/-- C4 (amended): a matched anchor with empty text and empty href is still
included, with candidate title `""` (the raw href fallback is itself
empty) and url equal to the base URL (`urljoin(base, "")` is the base);
`title == url` instead holds for the displayed row, where
`l.get("title") or l.get("url")` replaces the empty title with the
url. -/
theorem php_jobs_c4_amended (base_url pt : String)
    (hm : strContainsSub (lowerStr pt) "php" = true) :
    find_php_links_on_html [Anchor.mk "" "" (some pt)] base_url
      = [Candidate.mk "" base_url] ∧
    rowTitle (Candidate.mk "" base_url) = base_url := by
  constructor
  · have hA : anchorMatchesA (Anchor.mk "" "" (some pt)) = false := rfl
    have hB : anchorMatchesB (Anchor.mk "" "" (some pt)) = true := by
      simpa [anchorMatchesB] using hm
    have hcand : candOf base_url (Anchor.mk "" "" (some pt))
        = Candidate.mk "" base_url := by
      unfold candOf
      have h1 : html_unescape (if ("" : String) = "" then "" else "") = "" := by
        rw [if_pos rfl]
        rfl
      have h2 : urljoin base_url "" = base_url := by
        unfold urljoin
        rw [show ("" : String).toList = [] from rfl]
        simp
      rw [h1, h2]
    have hp : processAnchor base_url (Anchor.mk "" "" (some pt))
        = some (Candidate.mk "" base_url) := by
      rw [processAnchor, hA, hB]
      simp [hcand]
    unfold find_php_links_on_html rawMatches
    rw [List.filterMap_cons, hp]
    simp only [List.filterMap_nil]
    unfold dedupLoop
    simp [MAX_LINKS_PER_SITE, dedupLoop]
  · simp [rowTitle]

/-- Witness for C4 (amended). -/
theorem php_jobs_c4_amended_witness :
    find_php_links_on_html [Anchor.mk "" "" (some "php jobs")] "https://x"
      = [Candidate.mk "" "https://x"] ∧
    rowTitle (Candidate.mk "" "https://x") = "https://x" :=
  php_jobs_c4_amended "https://x" "php jobs" (by decide)

/-- C5: the extractor's output is exactly the raw match list deduplicated
on the `(url, title)` pair preserving first occurrences and truncated to
`MAX_LINKS_PER_SITE` entries; hence it has no duplicate pairs and at most
200 entries. -/
theorem php_jobs_c5 (anchors : List Anchor) (base_url : String) :
    find_php_links_on_html anchors base_url
      = (dedupPairsSpec (rawMatches anchors base_url)).take MAX_LINKS_PER_SITE ∧
    (find_php_links_on_html anchors base_url).Pairwise
      (fun c d => (c.url, c.title) ≠ (d.url, d.title)) ∧
    (find_php_links_on_html anchors base_url).length ≤ MAX_LINKS_PER_SITE := by
  refine ⟨find_php_eq_spec _ _, ?_, ?_⟩
  · rw [find_php_eq_spec]
    exact (dedupFirstAux_pairwise _ _).sublist (List.take_sublist _ _)
  · rw [find_php_eq_spec]
    exact List.length_take_le _ _

/-- C9: rule A and rule B are mutually exclusive per anchor: the match
list distributes over concatenation of the anchor list (so candidates
appear in document-traversal order), each anchor contributes at most one
entry, and an anchor matching rule A contributes exactly its one
candidate even when the parent text also contains the keyword. -/
theorem php_jobs_c9 (base_url : String) (l₁ l₂ : List Anchor) (a : Anchor) :
    rawMatches (l₁ ++ l₂) base_url
      = rawMatches l₁ base_url ++ rawMatches l₂ base_url ∧
    (rawMatches [a] base_url).length ≤ 1 ∧
    (anchorMatchesA a = true → anchorMatchesB a = true →
      rawMatches [a] base_url = [candOf base_url a]) := by
  refine ⟨?_, ?_, ?_⟩
  · unfold rawMatches
    exact List.filterMap_append _ _ _
  · cases h : processAnchor base_url a <;>
      simp [rawMatches, List.filterMap_cons, h]
  · intro hA _
    simp [rawMatches, List.filterMap_cons, processAnchor, hA]

/-- Witness for C9 at an anchor matched by both rules. -/
theorem php_jobs_c9_witness :
    rawMatches [Anchor.mk "PHP dev" "/x" (some "php jobs")] "https://x"
      = [candOf "https://x" (Anchor.mk "PHP dev" "/x" (some "php jobs"))] :=
  (php_jobs_c9 "https://x" [] [] (Anchor.mk "PHP dev" "/x" (some "php jobs"))).2.2
    (by decide) (by decide)

/-! Runner lemmas and claims. -/

theorem runSites_cons_error (fetch : String → Option String)
    (extract : String → String → Except ParseDefect (List Candidate))
    (site : String) (rest : List String) (d : ParseDefect)
    (hs : scrape_site fetch extract (normalizeSite site) = Except.error d) :
    runSites fetch extract (site :: rest)
      = ⟨RunExit.raised d, [], [normalizeSite site]⟩ := by
  rw [show runSites fetch extract (site :: rest)
        = (match scrape_site fetch extract (normalizeSite site) with
           | Except.error d => ⟨RunExit.raised d, [], [normalizeSite site]⟩
           | Except.ok links =>
               let rows := links.map
                 (fun c => Row.mk (rowTitle c) (normalizeSite site) c.url)
               let r := runSites fetch extract rest
               match r.exit with
               | RunExit.done n =>
                   ⟨RunExit.done (n + links.length), rows ++ r.rows,
                    normalizeSite site :: r.fetchLog⟩
               | e => ⟨e, rows ++ r.rows, normalizeSite site :: r.fetchLog⟩)
          from rfl]
  rw [hs]

theorem scrape_and_display_real (fetch : String → Option String)
    (parse : String → List Anchor) (rawLines : List String)
    (hne : cleanSites rawLines ≠ []) :
    scrape_and_display fetch (extractReal parse) rawLines
      = ⟨RunExit.done (((cleanSites rawLines).map
            (fun s => (siteLinks fetch parse s).length)).sum),
         realRows fetch parse (cleanSites rawLines),
         (cleanSites rawLines).map normalizeSite⟩ := by
  cases hcl : cleanSites rawLines with
  | nil => exact absurd hcl hne
  | cons s rest =>
      unfold scrape_and_display
      rw [hcl]
      exact runSites_real fetch parse (s :: rest)

/-- C2 counterexample: with two configured sites, a fetch that returns
content for every site, and an extraction step that raises a
`ParseDefect`, the run dies on the first site — the exception is not
caught, the second site is never fetched, and no final count is
reported. -/
theorem php_jobs_c2_cex :
    (scrape_and_display (fun _ => some "x")
        (fun _ _ => Except.error (ParseDefect.defect "boom")) ["a", "b"]).exit
      = RunExit.raised (ParseDefect.defect "boom") ∧
    "https://b" ∉ (scrape_and_display (fun _ => some "x")
        (fun _ _ => Except.error (ParseDefect.defect "boom")) ["a", "b"]).fetchLog := by
  decide

/-- C2 (amended): an unexpected parser exception is not caught at the
per-site boundary: when the first configured site fetches successfully
and its extraction raises, the exception propagates out of `scrape_site`
and terminates the whole run — no subsequent site is processed and no
final count is reported (the run exits as `raised`, not `done`). -/
theorem php_jobs_c2_amended (fetch : String → Option String)
    (extract : String → String → Except ParseDefect (List Candidate))
    (rawLines : List String) (s : String) (rest : List String)
    (h : String) (d : ParseDefect)
    (h1 : cleanSites rawLines = s :: rest)
    (h2 : fetch (normalizeSite s) = some h)
    (h3 : h ≠ "")
    (h4 : extract h (normalizeSite s) = Except.error d) :
    scrape_and_display fetch extract rawLines
      = ⟨RunExit.raised d, [], [normalizeSite s]⟩ := by
  have hs : scrape_site fetch extract (normalizeSite s) = Except.error d := by
    unfold scrape_site
    rw [h2]
    show (if h = "" then Except.ok [] else extract h (normalizeSite s))
      = Except.error d
    rw [if_neg h3, h4]
  unfold scrape_and_display
  rw [h1]
  exact runSites_cons_error fetch extract s rest d hs

/-- Witness for C2 (amended). -/
theorem php_jobs_c2_amended_witness :
    scrape_and_display (fun _ => some "x")
        (fun _ _ => Except.error (ParseDefect.defect "boom")) ["a"]
      = ⟨RunExit.raised (ParseDefect.defect "boom"), [], ["https://a"]⟩ := by
  have h := php_jobs_c2_amended (fun _ => some "x")
    (fun _ _ => Except.error (ParseDefect.defect "boom")) ["a"] "a" [] "x"
    (ParseDefect.defect "boom") (by decide) rfl (by decide) rfl
  simpa using h

/-- C6: with the script's own (total) extraction step, a run over a
nonempty cleaned site list always exits `done` with a count equal to the
sum of the per-site link counts; every configured site is fetched, in
order; a site whose fetch fails contributes no links; and if every site's
fetch fails the reported count is 0. -/
theorem php_jobs_c6 (fetch : String → Option String)
    (parse : String → List Anchor) (rawLines : List String)
    (hne : cleanSites rawLines ≠ []) :
    (scrape_and_display fetch (extractReal parse) rawLines).exit
      = RunExit.done (((cleanSites rawLines).map
          (fun s => (siteLinks fetch parse s).length)).sum) ∧
    (scrape_and_display fetch (extractReal parse) rawLines).fetchLog
      = (cleanSites rawLines).map normalizeSite ∧
    (∀ s : String, fetch (normalizeSite s) = none →
      siteLinks fetch parse s = []) ∧
    ((∀ s ∈ cleanSites rawLines, fetch (normalizeSite s) = none) →
      (scrape_and_display fetch (extractReal parse) rawLines).exit
        = RunExit.done 0) := by
  rw [scrape_and_display_real fetch parse rawLines hne]
  have hfail : ∀ s : String, fetch (normalizeSite s) = none →
      siteLinks fetch parse s = [] := by
    intro s hf
    unfold siteLinks
    rw [hf]
  refine ⟨rfl, rfl, hfail, ?_⟩
  intro hall
  have hz : ((cleanSites rawLines).map
      (fun s => (siteLinks fetch parse s).length)).sum = 0 := by
    apply List.sum_eq_zero
    intro x hx
    rcases List.mem_map.1 hx with ⟨s, hsmem, rfl⟩
    rw [hfail s (hall s hsmem)]
    rfl
  rw [hz]

/-- Witness for C6: one site whose fetch fails. -/
theorem php_jobs_c6_witness :
    (scrape_and_display (fun _ => none) (extractReal (fun _ => [])) ["a"]).exit
      = RunExit.done 0 :=
  (php_jobs_c6 (fun _ => none) (fun _ => []) ["a"] (by decide)).2.2.2
    (by intro s _; rfl)

/-- C7: an empty cleaned site list makes `scrape_and_display` return at
the "No sites" warning — the spec's `ConfigurationError` — with no rows
and an empty fetch log, for every fetcher and extractor (so no fetch is
performed). -/
theorem php_jobs_c7 (fetch : String → Option String)
    (extract : String → String → Except ParseDefect (List Candidate))
    (rawLines : List String) (h : cleanSites rawLines = []) :
    scrape_and_display fetch extract rawLines
      = ⟨RunExit.configWarning, [], []⟩ := by
  unfold scrape_and_display
  rw [h]

/-- Witness for C7: a site list of blank lines. -/
theorem php_jobs_c7_witness :
    scrape_and_display (fun _ => some "x") (fun _ _ => Except.ok []) ["", " "]
      = ⟨RunExit.configWarning, [], []⟩ :=
  php_jobs_c7 (fun _ => some "x") (fun _ _ => Except.ok []) ["", " "] (by decide)

/-- C8: a configured site URL without a scheme is normalized by prepending
`https://`, one with a scheme is used unchanged, and the run fetches
exactly the normalized URLs of the cleaned site list, in order. -/
theorem php_jobs_c8 (fetch : String → Option String)
    (parse : String → List Anchor) (rawLines : List String) (s : String) :
    (urlScheme s = "" → normalizeSite s = "https://" ++ s) ∧
    (urlScheme s ≠ "" → normalizeSite s = s) ∧
    (cleanSites rawLines ≠ [] →
      (scrape_and_display fetch (extractReal parse) rawLines).fetchLog
        = (cleanSites rawLines).map normalizeSite) := by
  refine ⟨?_, ?_, ?_⟩
  · intro h
    simp [normalizeSite, h]
  · intro h
    simp [normalizeSite, h]
  · intro hne
    rw [scrape_and_display_real fetch parse rawLines hne]

/-- Witness for C8: `example.com/php` gains the https scheme. -/
theorem php_jobs_c8_witness :
    normalizeSite "example.com/php" = "https://" ++ "example.com/php" :=
  (php_jobs_c8 (fun _ => none) (fun _ => []) [] "example.com/php").1 (by decide)

/-- C10: a fetch that succeeds with an empty body is treated exactly like
a fetch failure: `scrape_site` returns no links without invoking the
extraction step (the result is the same for every extractor), identical
to the result under a fetcher that fails on that URL. -/
theorem php_jobs_c10 (fetch fetch2 : String → Option String)
    (extract extract2 : String → String → Except ParseDefect (List Candidate))
    (url : String) (h : fetch url = some "") (h2 : fetch2 url = none) :
    scrape_site fetch extract url = Except.ok [] ∧
    scrape_site fetch extract url = scrape_site fetch2 extract2 url := by
  have e1 : scrape_site fetch extract url = Except.ok [] := by
    unfold scrape_site
    rw [h]
    simp
  have e2 : scrape_site fetch2 extract2 url = Except.ok [] := by
    unfold scrape_site
    rw [h2]
  exact ⟨e1, e1.trans e2.symm⟩

/-- Witness for C10, with an extractor that would return a link if it were
ever invoked. -/
theorem php_jobs_c10_witness :
    scrape_site (fun _ => some "")
        (fun _ _ => Except.ok [Candidate.mk "t" "u"]) "https://a"
      = Except.ok [] ∧
    scrape_site (fun _ => some "")
        (fun _ _ => Except.ok [Candidate.mk "t" "u"]) "https://a"
      = scrape_site (fun _ => none)
          (fun _ _ => Except.error (ParseDefect.defect "e")) "https://a" :=
  php_jobs_c10 (fun _ => some "") (fun _ => none)
    (fun _ _ => Except.ok [Candidate.mk "t" "u"])
    (fun _ _ => Except.error (ParseDefect.defect "e")) "https://a" rfl rfl

end PhpJobs
